import Mathlib

/-!
Verification of the douyin-auto-reply detection/automation core.

Shallow Lean embedding of the Python sources:
- src/main.py (DetectionThread rate limiting, DouyinAutoReplyApp error
  handling and learning-result persistence),
- src/__pycache__/core/detector.py (DetectorEngine probes, smart detection
  cadence, fusion dedup/ranking, pixel-diff analysis).

Timestamps (Python time.time) are modelled as natural-number seconds.
Python float arithmetic on confidences/scores is modelled over ℚ.
Python dicts are modelled as lookup functions; browser/page effects are
modelled by environments supplying each effectful call site result, with
Except used for call sites that can raise.
-/

namespace Douyin

/-! ## Reply rate limiter
    Source: src/main.py, DetectionThread._check_reply_frequency (448-468),
    DetectionThread._record_reply_time (470-480), _send_auto_reply (365-426). -/

/-- Window membership for the rolling 60-second window (a, a+60]. -/
def inWindow (a t : Nat) : Bool := decide (a < t) && decide (t ≤ a + 60)

/-- One send attempt at time now with page-send outcome sendOk, acting on
the reply_times list: evict records older than 60 s (the filter in
_check_reply_frequency line 455), reject when the remaining count reaches
the limit (line 461), otherwise attempt the send and, on a confirmed send,
append the current time (_record_reply_time line 475). Returns the new
reply_times list and whether a send was recorded. -/
def replyAttempt (limit : Nat) (replyTimes : List Nat) (now : Nat) (sendOk : Bool) :
    List Nat × Bool :=
  let evicted := replyTimes.filter (fun t => decide (now - t < 60))
  if limit ≤ evicted.length then (evicted, false)
  else if sendOk then (evicted ++ [now], true)
  else (evicted, false)

/-- Process a sequence of send attempts (time, page-send outcome) against a
starting reply_times state, pairing each attempt time with whether a reply
record was made. -/
def replyRun (limit : Nat) : List (Nat × Bool) → List Nat → List (Nat × Bool)
  | [], _ => []
  | att :: rest, st =>
    let r := replyAttempt limit st att.1 att.2
    (att.1, r.2) :: replyRun limit rest r.1

/-- Times of the reply records made during a run of send attempts. -/
def replySends (limit : Nat) (attempts : List (Nat × Bool)) (st : List Nat) :
    List Nat :=
  ((replyRun limit attempts st).filter (fun p => p.2)).map Prod.fst

theorem replyRun_mem_fst (limit : Nat) :
    ∀ (attempts : List (Nat × Bool)) (st : List Nat) (p : Nat × Bool),
      p ∈ replyRun limit attempts st → p.1 ∈ attempts.map Prod.fst := by
  intro attempts
  induction attempts with
  | nil => intro st p h; simp [replyRun] at h
  | cons att rest ih =>
    intro st p h
    simp only [replyRun, List.mem_cons] at h
    rcases h with h | h
    · simp [h]
    · simp only [List.map_cons, List.mem_cons]
      exact Or.inr (ih _ p h)

theorem replyRun_window_aux (limit a : Nat) :
    ∀ (attempts : List (Nat × Bool)) (st : List Nat),
      (attempts.map Prod.fst).Sorted (· ≤ ·) →
      st.length ≤ limit →
      (replyRun limit attempts st).countP (fun p => inWindow a p.1 && p.2)
        + st.countP (inWindow a) ≤ limit := by
  intro attempts
  induction attempts with
  | nil =>
    intro st _ hlen
    simpa [replyRun] using le_trans (List.countP_le_length _) hlen
  | cons att rest ih =>
    intro st hsorted hlen
    rw [List.map_cons] at hsorted
    obtain ⟨hmono, hsorted'⟩ := List.sorted_cons.mp hsorted
    set ev := st.filter (fun t => decide (att.1 - t < 60)) with hev
    have hlen_ev : ev.length ≤ st.length := List.length_filter_le _ _
    -- helper: when the attempt time does not lie beyond the window,
    -- eviction preserves the in-window count
    have hpres : att.1 ≤ a + 60 →
        ev.countP (inWindow a) = st.countP (inWindow a) := by
      intro h1
      rw [hev, List.countP_filter]
      apply List.countP_congr
      intro t _
      by_cases hW : inWindow a t = true
      · have hat : a < t := by
          have := hW
          simp only [inWindow, Bool.and_eq_true, decide_eq_true_eq] at this
          exact this.1
        have : att.1 - t < 60 := by omega
        simp [hW, this]
      · simp [Bool.eq_false_iff.mpr hW]
    -- helper: when the attempt time is beyond the window, no later send
    -- can land in the window
    have hlate : ∀ st2 : List Nat, a + 60 < att.1 →
        (replyRun limit rest st2).countP (fun p => inWindow a p.1 && p.2) = 0 := by
      intro st2 h2
      apply List.countP_eq_zero.mpr
      intro p hp
      have hpmem := replyRun_mem_fst limit rest st2 p hp
      have : att.1 ≤ p.1 := hmono _ hpmem
      have : ¬ (p.1 ≤ a + 60) := by omega
      simp [inWindow, this]
    by_cases hfull : limit ≤ ev.length
    · -- rejection branch
      have hstep : replyRun limit (att :: rest) st
          = (att.1, false) :: replyRun limit rest ev := by
        simp [replyRun, replyAttempt, hev, hfull]
      rw [hstep]
      simp only [List.countP_cons, Bool.and_false]
      by_cases h1 : att.1 ≤ a + 60
      · have := ih ev hsorted' (le_trans hlen_ev hlen)
        rw [hpres h1] at this
        simpa using this
      · have h2 : a + 60 < att.1 := by omega
        rw [hlate ev h2]
        simpa using le_trans (List.countP_le_length _) hlen
    · -- the check passes
      push_neg at hfull
      by_cases hok : att.2 = true
      · -- confirmed send: record the time
        have hstep : replyRun limit (att :: rest) st
            = (att.1, true) :: replyRun limit rest (ev ++ [att.1]) := by
          simp [replyRun, replyAttempt, hev, Nat.not_le.mpr hfull, hok]
        rw [hstep]
        have hlen2 : (ev ++ [att.1]).length ≤ limit := by
          simp only [List.length_append, List.length_cons, List.length_nil]
          omega
        have hIH := ih (ev ++ [att.1]) hsorted' hlen2
        rw [List.countP_append] at hIH
        simp only [List.countP_cons, List.countP_nil] at hIH ⊢
        by_cases h1 : att.1 ≤ a + 60
        · rw [hpres h1] at hIH
          simp only [Bool.and_true]
          omega
        · have h2 : a + 60 < att.1 := by omega
          rw [hlate (ev ++ [att.1]) h2]
          have hWfalse : inWindow a att.1 = false := by
            simp [inWindow]; omega
          rw [hWfalse]
          simpa using le_trans (List.countP_le_length _) hlen
      · -- check passed but the page send failed: nothing recorded
        have hok' : att.2 = false := by
          cases h : att.2
          · rfl
          · exact absurd h hok
        have hstep : replyRun limit (att :: rest) st
            = (att.1, false) :: replyRun limit rest ev := by
          simp [replyRun, replyAttempt, hev, Nat.not_le.mpr hfull, hok']
        rw [hstep]
        simp only [List.countP_cons, Bool.and_false]
        by_cases h1 : att.1 ≤ a + 60
        · have := ih ev hsorted' (le_trans hlen_ev hlen)
          rw [hpres h1] at this
          simpa using this
        · have h2 : a + 60 < att.1 := by omega
          rw [hlate ev h2]
          simpa using le_trans (List.countP_le_length _) hlen

theorem replySends_countP (limit a : Nat) (attempts : List (Nat × Bool))
    (st : List Nat) :
    (replySends limit attempts st).countP (inWindow a)
      = (replyRun limit attempts st).countP (fun p => inWindow a p.1 && p.2) := by
  unfold replySends
  rw [List.countP_map, List.countP_filter]
  rfl

/-- Claim C1: with per-minute limit N ≥ 1, evicting reply records older than
60 s before each check, rejecting once the count reaches N, and recording a
record after each confirmed send, no rolling 60-second window (a, a+60]
ever contains more than N recorded sends; and with limit 5, six send
attempts within 10 seconds yield exactly 5 reply records and 1 rejection. -/
theorem check_reply_frequency_window_bound :
    (∀ (limit a : Nat) (attempts : List (Nat × Bool)),
      1 ≤ limit →
      (attempts.map Prod.fst).Sorted (· ≤ ·) →
      (replySends limit attempts []).countP (inWindow a) ≤ limit) ∧
    replyRun 5 [(0, true), (2, true), (4, true), (6, true), (8, true), (10, true)] []
      = [(0, true), (2, true), (4, true), (6, true), (8, true), (10, false)] := by
  constructor
  · intro limit a attempts _ hsorted
    have := replyRun_window_aux limit a attempts [] hsorted (by simp)
    rw [replySends_countP]
    simpa using this
  · decide

/-- Witness: the window bound of check_reply_frequency_window_bound applied
to the concrete six-attempt scenario with limit 5. -/
theorem check_reply_frequency_window_bound_witness :
    1 ≤ 5 ∧
    (([(0, true), (2, true), (4, true), (6, true), (8, true), (10, true)] :
        List (Nat × Bool)).map Prod.fst).Sorted (· ≤ ·) ∧
    (replySends 5 [(0, true), (2, true), (4, true), (6, true), (8, true), (10, true)] []).countP
        (inWindow 0) ≤ 5 :=
  ⟨by decide, by decide,
    check_reply_frequency_window_bound.1 5 0
      [(0, true), (2, true), (4, true), (6, true), (8, true), (10, true)]
      (by decide) (by decide)⟩

/-! ## Fail-open behaviour of the frequency check
    Source: src/main.py, DetectionThread.__init__ (157-174) and
    DetectionThread._check_reply_frequency (448-468). The constructor sets
    detector, interval, browser, config_manager, running, paused and
    learning_elements, but never reply_times, reply_count or
    last_reply_time; those are only set on the main-window object
    (main.py 650-652), a different instance. -/

/-- Attribute slots of a DetectionThread that _check_reply_frequency and
_record_reply_time touch; none models an attribute that was never set. -/
structure ThreadState where
  running : Bool
  paused : Bool
  replyTimes : Option (List Nat)
  replyCount : Option Nat
  lastReplyTime : Option Nat
deriving Repr, DecidableEq

/-- State of a DetectionThread right after __init__ (main.py 157-174):
running and paused are set to False, and no reply bookkeeping attribute
is ever assigned. -/
def DetectionThread.init : ThreadState :=
  { running := false, paused := false, replyTimes := none,
    replyCount := none, lastReplyTime := none }

/-- Read of a Python attribute: raises AttributeError when absent. -/
def getAttr {α : Type} (v : Option α) : Except String α :=
  match v with
  | none => Except.error "AttributeError"
  | some a => Except.ok a

/-- Body of the try block of _check_reply_frequency (main.py 450-464):
read self.reply_times, evict entries older than 60 s, read the configured
limit (which may itself raise, e.g. int() on a bad config string), and
compare. Returns the surviving records and the verdict. -/
def checkReplyFrequencyBody (st : ThreadState) (now : Nat)
    (limitCfg : Except String Nat) : Except String (List Nat × Bool) := do
  let times ← getAttr st.replyTimes
  let times := times.filter (fun t => decide (now - t < 60))
  let limit ← limitCfg
  if limit ≤ times.length then return (times, false)
  else return (times, true)

/-- Whole _check_reply_frequency (main.py 448-468): the except branch logs
and returns True, allowing the reply. -/
def checkReplyFrequency (st : ThreadState) (now : Nat)
    (limitCfg : Except String Nat) : Bool :=
  match checkReplyFrequencyBody st now limitCfg with
  | Except.ok r => r.2
  | Except.error _ => true

/-- Claim C10: the rate limiter fails open: whenever the body of
_check_reply_frequency raises, the check returns True and the send is
allowed; in particular on a thread fresh out of __init__, where the first
access to the absent reply_times attribute raises, the check allows the
send regardless of the configured limit. -/
theorem check_reply_frequency_fails_open :
    (∀ (st : ThreadState) (now : Nat) (limitCfg : Except String Nat) (e : String),
      checkReplyFrequencyBody st now limitCfg = Except.error e →
      checkReplyFrequency st now limitCfg = true) ∧
    (∀ (now : Nat) (limitCfg : Except String Nat),
      checkReplyFrequency DetectionThread.init now limitCfg = true) := by
  constructor
  · intro st now limitCfg e h
    unfold checkReplyFrequency
    rw [h]
  · intro now limitCfg
    rfl

/-- Witness: the fail-open theorem applied to the freshly initialized
thread state, whose body raises AttributeError at time 0 with limit 5. -/
theorem check_reply_frequency_fails_open_witness :
    checkReplyFrequencyBody DetectionThread.init 0 (Except.ok 5)
        = Except.error "AttributeError" ∧
    checkReplyFrequency DetectionThread.init 0 (Except.ok 5) = true :=
  ⟨rfl, check_reply_frequency_fails_open.1 DetectionThread.init 0
      (Except.ok 5) "AttributeError" rfl⟩

/-! ## Smart detection cadence
    Source: src/__pycache__/core/detector.py,
    DetectorEngine._execute_smart_detection (104-147). -/

/-- Tags of the four signal probes. -/
inductive Probe
  | visual
  | dom
  | css
  | scroll
deriving Repr, DecidableEq

/-- Try-block of _execute_smart_detection (detector.py 110-139): if a
previous full-pass timestamp exists and less than 60 s have elapsed, run
only the dom and css probes and keep the timestamp; otherwise (first call,
or 60 s or more elapsed) run all four probes and set the timestamp to the
current time. Returns the probe set run and the new timestamp state. -/
def executeSmartDetection (lastFull : Option Nat) (now : Nat) :
    List Probe × Option Nat :=
  match lastFull with
  | some last =>
    if now - last < 60 then ([Probe.dom, Probe.css], some last)
    else ([Probe.visual, Probe.dom, Probe.css, Probe.scroll], some now)
  | none => ([Probe.visual, Probe.dom, Probe.css, Probe.scroll], some now)

/-- Claim C2: the dispatcher runs all four probes and updates the full-pass
timestamp on the first request and on any request more than 60 s after the
last full pass; a request less than 60 s after the last full pass runs only
the dom and css probes and leaves the timestamp unchanged; in particular a
request at T+59 uses the reduced set and a request at T+61 triggers a full
pass updating the timestamp. -/
theorem execute_smart_detection_cadence :
    (∀ now : Nat, executeSmartDetection none now
      = ([Probe.visual, Probe.dom, Probe.css, Probe.scroll], some now)) ∧
    (∀ lastT now : Nat, 60 < now - lastT →
      executeSmartDetection (some lastT) now
        = ([Probe.visual, Probe.dom, Probe.css, Probe.scroll], some now)) ∧
    (∀ lastT now : Nat, now - lastT < 60 →
      executeSmartDetection (some lastT) now
        = ([Probe.dom, Probe.css], some lastT)) ∧
    (∀ lastT : Nat, executeSmartDetection (some lastT) (lastT + 59)
      = ([Probe.dom, Probe.css], some lastT)) ∧
    (∀ lastT : Nat, executeSmartDetection (some lastT) (lastT + 61)
      = ([Probe.visual, Probe.dom, Probe.css, Probe.scroll], some (lastT + 61))) := by
  refine ⟨fun now => rfl, ?_, ?_, ?_, ?_⟩
  · intro lastT now h
    have : ¬ (now - lastT < 60) := by omega
    simp [executeSmartDetection, this]
  · intro lastT now h
    simp [executeSmartDetection, h]
  · intro lastT
    have : lastT + 59 - lastT < 60 := by omega
    simp [executeSmartDetection, this]
  · intro lastT
    have : ¬ (lastT + 61 - lastT < 60) := by omega
    simp [executeSmartDetection, this]

/-- Witness: the cadence theorem applied at full-pass timestamp 100, with
requests at 161 (elapsed 61) and 159 (elapsed 59). -/
theorem execute_smart_detection_cadence_witness :
    (60 < 161 - 100 ∧ executeSmartDetection (some 100) 161
      = ([Probe.visual, Probe.dom, Probe.css, Probe.scroll], some 161)) ∧
    (159 - 100 < 60 ∧ executeSmartDetection (some 100) 159
      = ([Probe.dom, Probe.css], some 100)) :=
  ⟨⟨by decide, execute_smart_detection_cadence.2.1 100 161 (by decide)⟩,
   ⟨by decide, execute_smart_detection_cadence.2.2.1 100 159 (by decide)⟩⟩

/-! ## Error-prompt deduplication
    Source: src/main.py, DouyinAutoReplyApp._on_error_occurred (1132-1170);
    the error_history dict (main.py 655) is modelled as a lookup function
    from keys to (last prompt time, occurrence count). -/

/-- Python character slicing s[:n], acting on the code-point list. -/
def pyTake (s : String) (n : Nat) : String := String.mk (s.data.take n)

/-- Error bookkeeping key (main.py 1141): error type, a colon, and the
first 50 characters of the message. -/
def errorKey (etype emsg : String) : String := etype ++ ":" ++ pyTake emsg 50

/-- History of error occurrences: key to (last prompt time, count). -/
def ErrorHistory : Type := String → Option (Nat × Nat)

/-- Dict assignment error_history[key] = value. -/
def histSet (h : ErrorHistory) (k : String) (v : Nat × Nat) : ErrorHistory :=
  fun k2 => if k2 = k then some v else h k2

/-- Purge of expired entries (main.py 1157-1163): every entry whose
timestamp is more than 60 s old is deleted. -/
def histPurge (now : Nat) (h : ErrorHistory) : ErrorHistory :=
  fun k2 =>
    match h k2 with
    | some v => if 60 < now - v.1 then none else some v
    | none => none

/-- One invocation of _on_error_occurred (main.py 1139-1168): on a known
key seen less than 30 s ago or with at least 5 occurrences, return early
without prompting (and without purging); otherwise record the occurrence,
purge expired entries and show the correction dialog. Returns the new
history and whether the dialog was shown. -/
def onErrorOccurred (h : ErrorHistory) (etype emsg : String) (now : Nat) :
    ErrorHistory × Bool :=
  match h (errorKey etype emsg) with
  | some lc =>
    if now - lc.1 < 30 ∨ 5 ≤ lc.2 then (h, false)
    else (histPurge now (histSet h (errorKey etype emsg) (now, lc.2 + 1)), true)
  | none => (histPurge now (histSet h (errorKey etype emsg) (now, 1)), true)

/-- One reported error: when it happened, its type and its message. -/
structure ErrEvent where
  time : Nat
  etype : String
  emsg : String

/-- Process a sequence of reported errors, returning the correction
prompts shown, each as (time, error key). -/
def runErrors : List ErrEvent → ErrorHistory → List (Nat × String)
  | [], _ => []
  | e :: rest, h =>
    match onErrorOccurred h e.etype e.emsg e.time with
    | (h2, true) => (e.time, errorKey e.etype e.emsg) :: runErrors rest h2
    | (h2, false) => runErrors rest h2

/-- Invariant tying the history to the prompts already shown, at a moment
when all processed events had time at most T0: the entry of a key records
the time of its latest prompt, and a key with no entry was last prompted
more than 60 s ago. -/
structure PromptInv (h : ErrorHistory) (P : List (Nat × String)) (T0 : Nat) :
    Prop where
  le_T0 : ∀ p ∈ P, p.1 ≤ T0
  entry : ∀ k lastT cnt, h k = some (lastT, cnt) →
    lastT ≤ T0 ∧ (lastT, k) ∈ P ∧ ∀ p ∈ P, p.2 = k → p.1 ≤ lastT
  gone : ∀ k, h k = none → ∀ p ∈ P, p.2 = k → 60 < T0 - p.1

theorem histPurge_some {now : Nat} {h : ErrorHistory} {k : String}
    {v : Nat × Nat} (hk : histPurge now h k = some v) :
    h k = some v ∧ now - v.1 ≤ 60 := by
  unfold histPurge at hk
  split at hk
  · next w hw =>
    split at hk
    · cases hk
    · next h60 =>
      obtain rfl := Option.some.inj hk
      exact ⟨hw, by omega⟩
  · cases hk

theorem histPurge_none {now : Nat} {h : ErrorHistory} {k : String}
    (hk : histPurge now h k = none) :
    h k = none ∨ ∃ v, h k = some v ∧ 60 < now - v.1 := by
  unfold histPurge at hk
  split at hk
  · next w hw =>
    split at hk
    · next h60 => exact Or.inr ⟨w, hw, h60⟩
    · cases hk
  · next hw => exact Or.inl hw

theorem promptInv_update (h : ErrorHistory) (P : List (Nat × String))
    (T0 now c : Nat) (k : String) (hT0 : T0 ≤ now) (hinv : PromptInv h P T0) :
    PromptInv (histPurge now (histSet h k (now, c))) (P ++ [(now, k)]) now := by
  constructor
  · intro p hp
    rcases List.mem_append.mp hp with hp | hp
    · exact le_trans (hinv.le_T0 p hp) hT0
    · simp only [List.mem_singleton] at hp
      rw [hp]
  · intro k2 lastT cnt hk2
    by_cases hkk : k2 = k
    · subst hkk
      have hval : histPurge now (histSet h k2 (now, c)) k2 = some (now, c) := by
        simp [histPurge, histSet]
      rw [hval] at hk2
      obtain ⟨rfl, rfl⟩ : lastT = now ∧ cnt = c := by
        have := Option.some.inj hk2
        exact ⟨congrArg Prod.fst this.symm, congrArg Prod.snd this.symm⟩
      refine ⟨le_refl _, List.mem_append.mpr (Or.inr (by simp)), ?_⟩
      intro p hp _
      rcases List.mem_append.mp hp with hp | hp
      · exact le_trans (hinv.le_T0 p hp) hT0
      · simp only [List.mem_singleton] at hp
        rw [hp]
    · have hpass : histSet h k (now, c) k2 = h k2 := by simp [histSet, hkk]
      have hh : h k2 = some (lastT, cnt) := by
        have := histPurge_some hk2
        rw [hpass] at this
        exact this.1
      obtain ⟨h1, h2, h3⟩ := hinv.entry k2 lastT cnt hh
      refine ⟨le_trans h1 hT0, List.mem_append.mpr (Or.inl h2), ?_⟩
      intro p hp hpk
      rcases List.mem_append.mp hp with hp | hp
      · exact h3 p hp hpk
      · simp only [List.mem_singleton] at hp
        rw [hp] at hpk
        exact absurd hpk.symm hkk
  · intro k2 hk2 p hp hpk
    by_cases hkk : k2 = k
    · subst hkk
      have hval : histPurge now (histSet h k2 (now, c)) k2 = some (now, c) := by
        simp [histPurge, histSet]
      rw [hval] at hk2
      cases hk2
    · rcases List.mem_append.mp hp with hpP | hpn
      · have hpass : histSet h k (now, c) k2 = h k2 := by simp [histSet, hkk]
        rcases histPurge_none hk2 with hnone | ⟨v, hv, h60⟩
        · rw [hpass] at hnone
          have := hinv.gone k2 hnone p hpP hpk
          omega
        · rw [hpass] at hv
          obtain ⟨_, _, h3⟩ := hinv.entry k2 v.1 v.2 (by rw [hv])
          have hple := h3 p hpP hpk
          omega
      · simp only [List.mem_singleton] at hpn
        rw [hpn] at hpk
        exact absurd hpk.symm hkk

theorem runErrors_no_repeat_aux :
    ∀ (events : List ErrEvent) (h : ErrorHistory) (P : List (Nat × String))
      (T0 : Nat),
      (events.map ErrEvent.time).Sorted (· ≤ ·) →
      (∀ e ∈ events, T0 ≤ e.time) →
      PromptInv h P T0 →
      (runErrors events h).Pairwise (fun p q => p.2 = q.2 → p.1 + 30 ≤ q.1) ∧
      (∀ p ∈ P, ∀ q ∈ runErrors events h, p.2 = q.2 → p.1 + 30 ≤ q.1) := by
  intro events
  induction events with
  | nil =>
    intro h P T0 _ _ _
    refine ⟨List.Pairwise.nil, ?_⟩
    intro p _ q hq
    simp [runErrors] at hq
  | cons e rest ih =>
    intro h P T0 hsorted hge hinv
    rw [List.map_cons] at hsorted
    obtain ⟨hmono, hsorted'⟩ := List.sorted_cons.mp hsorted
    have hge' : ∀ e2 ∈ rest, e.time ≤ e2.time := fun e2 he2 =>
      hmono _ (List.mem_map_of_mem _ he2)
    have hT0e : T0 ≤ e.time := hge e (List.mem_cons_self _ _)
    cases hlook : h (errorKey e.etype e.emsg) with
    | none =>
      have hstep : runErrors (e :: rest) h
          = (e.time, errorKey e.etype e.emsg)
            :: runErrors rest
              (histPurge e.time
                (histSet h (errorKey e.etype e.emsg) (e.time, 1))) := by
        simp [runErrors, onErrorOccurred, hlook]
      have hinv2 := promptInv_update h P T0 e.time 1
        (errorKey e.etype e.emsg) hT0e hinv
      have hIH := ih _ (P ++ [(e.time, errorKey e.etype e.emsg)]) e.time
        hsorted' hge' hinv2
      rw [hstep]
      constructor
      · rw [List.pairwise_cons]
        refine ⟨?_, hIH.1⟩
        intro q hq hkey
        exact hIH.2 (e.time, errorKey e.etype e.emsg)
          (List.mem_append.mpr (Or.inr (by simp))) q hq hkey
      · intro p hp q hq hkey
        rcases List.mem_cons.mp hq with hq | hq
        · rw [hq] at hkey ⊢
          have := hinv.gone (errorKey e.etype e.emsg) hlook p hp hkey
          simp only
          omega
        · exact hIH.2 p (List.mem_append.mpr (Or.inl hp)) q hq hkey
    | some lc =>
      by_cases hsup : e.time - lc.1 < 30 ∨ 5 ≤ lc.2
      · have hstep : runErrors (e :: rest) h = runErrors rest h := by
          simp [runErrors, onErrorOccurred, hlook, hsup]
        have hinv2 : PromptInv h P e.time := by
          constructor
          · intro p hp
            exact le_trans (hinv.le_T0 p hp) hT0e
          · intro k2 lastT cnt hk2
            obtain ⟨h1, h2, h3⟩ := hinv.entry k2 lastT cnt hk2
            exact ⟨le_trans h1 hT0e, h2, h3⟩
          · intro k2 hk2 p hp hpk
            have := hinv.gone k2 hk2 p hp hpk
            omega
        rw [hstep]
        exact ih h P e.time hsorted' hge' hinv2
      · have hstep : runErrors (e :: rest) h
            = (e.time, errorKey e.etype e.emsg)
              :: runErrors rest
                (histPurge e.time
                  (histSet h (errorKey e.etype e.emsg) (e.time, lc.2 + 1))) := by
          simp [runErrors, onErrorOccurred, hlook, hsup]
        have hgap : ∀ p ∈ P, p.2 = errorKey e.etype e.emsg →
            p.1 + 30 ≤ e.time := by
          intro p hp hpk
          obtain ⟨h1, _, h3⟩ := hinv.entry (errorKey e.etype e.emsg) lc.1 lc.2
            (by rw [hlook])
          have hple := h3 p hp hpk
          have h30 : ¬ (e.time - lc.1 < 30) := fun hcon => hsup (Or.inl hcon)
          omega
        have hinv2 := promptInv_update h P T0 e.time (lc.2 + 1)
          (errorKey e.etype e.emsg) hT0e hinv
        have hIH := ih _ (P ++ [(e.time, errorKey e.etype e.emsg)]) e.time
          hsorted' hge' hinv2
        rw [hstep]
        constructor
        · rw [List.pairwise_cons]
          refine ⟨?_, hIH.1⟩
          intro q hq hkey
          exact hIH.2 (e.time, errorKey e.etype e.emsg)
            (List.mem_append.mpr (Or.inr (by simp))) q hq hkey
        · intro p hp q hq hkey
          rcases List.mem_cons.mp hq with hq | hq
          · rw [hq] at hkey ⊢
            exact hgap p hp hkey
          · exact hIH.2 p (List.mem_append.mpr (Or.inl hp)) q hq hkey

/-- History with no recorded errors (main.py 655: error_history = {}). -/
def emptyErrorHistory : ErrorHistory := fun _ => none

/-- Counterexample to claim C3 as stated: the clause that entries older
than 60 seconds are purged on each invocation fails. After a prompt for
key A:x at time 0 and a prompt for key B:y at time 50, the invocation for
B:y at time 70 is suppressed and returns early, leaving the A:x entry in
the history even though it is 70 seconds old. -/
theorem on_error_occurred_no_purge_when_suppressed :
    (onErrorOccurred
      (onErrorOccurred
        (onErrorOccurred emptyErrorHistory "A" "x" 0).1 "B" "y" 50).1
      "B" "y" 70).2 = false ∧
    (onErrorOccurred
      (onErrorOccurred
        (onErrorOccurred emptyErrorHistory "A" "x" 0).1 "B" "y" 50).1
      "B" "y" 70).1 (errorKey "A" "x") = some (0, 1) ∧
    60 < 70 - 0 := by
  refine ⟨?_, ?_, by decide⟩ <;> decide

/-- Claim C3 (amended): the error handler never shows two correction
prompts for the same key (type + first 50 characters of message) within
30 seconds of each other, and never prompts for a key whose active entry
has reached 5 recorded occurrences; entries older than 60 seconds are
purged on each invocation that reaches the prompt stage (suppressed
invocations return early without purging); in particular the same error
reported twice within 20 seconds produces exactly one prompt. -/
theorem on_error_occurred_dedup :
    (∀ events : List ErrEvent,
      (events.map ErrEvent.time).Sorted (· ≤ ·) →
      (runErrors events emptyErrorHistory).Pairwise
        (fun p q => p.2 = q.2 → p.1 + 30 ≤ q.1)) ∧
    (∀ (h : ErrorHistory) (etype emsg : String) (now lastT cnt : Nat),
      h (errorKey etype emsg) = some (lastT, cnt) → 5 ≤ cnt →
      (onErrorOccurred h etype emsg now).2 = false) ∧
    (∀ (h : ErrorHistory) (etype emsg : String) (now : Nat),
      (onErrorOccurred h etype emsg now).2 = true →
      ∀ (k2 : String) (v : Nat × Nat),
        (onErrorOccurred h etype emsg now).1 k2 = some v → now - v.1 ≤ 60) ∧
    runErrors
      [⟨0, "EntryPointUnavailable", "entry point missing"⟩,
       ⟨20, "EntryPointUnavailable", "entry point missing"⟩]
      emptyErrorHistory
      = [(0, errorKey "EntryPointUnavailable" "entry point missing")] := by
  refine ⟨?_, ?_, ?_, by decide⟩
  · intro events hsorted
    have hinv0 : PromptInv emptyErrorHistory [] 0 := by
      constructor
      · intro p hp
        cases hp
      · intro k lastT cnt hk
        cases hk
      · intro k _ p hp
        cases hp
    exact (runErrors_no_repeat_aux events emptyErrorHistory [] 0 hsorted
      (fun _ _ => Nat.zero_le _) hinv0).1
  · intro h etype emsg now lastT cnt hlook hcnt
    simp [onErrorOccurred, hlook, hcnt]
  · intro h etype emsg now hprompt k2 v hk2
    cases hlook : h (errorKey etype emsg) with
    | none =>
      simp only [onErrorOccurred, hlook] at hk2
      exact (histPurge_some hk2).2
    | some lc =>
      by_cases hsup : now - lc.1 < 30 ∨ 5 ≤ lc.2
      · simp [onErrorOccurred, hlook, hsup] at hprompt
      · simp only [onErrorOccurred, hlook, if_neg hsup] at hk2
        exact (histPurge_some hk2).2

/-- Witness: the no-repeat property of on_error_occurred_dedup applied to
a concrete sorted two-event trace. -/
theorem on_error_occurred_dedup_witness :
    (([⟨0, "A", "m"⟩, ⟨20, "A", "m"⟩] :
        List ErrEvent).map ErrEvent.time).Sorted (· ≤ ·) ∧
    (runErrors [⟨0, "A", "m"⟩, ⟨20, "A", "m"⟩] emptyErrorHistory).Pairwise
      (fun p q => p.2 = q.2 → p.1 + 30 ≤ q.1) :=
  ⟨by decide,
    on_error_occurred_dedup.1 [⟨0, "A", "m"⟩, ⟨20, "A", "m"⟩] (by decide)⟩

/-! ## Fusion deduplication and ranking
    Source: src/__pycache__/core/detector.py,
    DetectorEngine._analyze_results (747-886): normalized candidates are
    deduplicated over three key spaces (795-837) and sorted by a composite
    score (839-874). -/

/-- Normalized candidate message as read by _analyze_results: selector,
text, detection_method and confidence, with the dict .get defaults
(empty strings, method unknown, confidence 0) already applied. -/
structure Msg where
  selector : String
  text : String
  method : String
  confidence : ℚ
deriving DecidableEq, Repr

/-- Combined key (detector.py 808): selector, an underscore, and the first
50 characters of the text. -/
def selectorTextKey (m : Msg) : String := m.selector ++ "_" ++ pyTake m.text 50

/-- Text-only key (detector.py 810). -/
def textKey (m : Msg) : String := "text_" ++ pyTake m.text 50

/-- Selector-only key (detector.py 812). -/
def selectorKey (m : Msg) : String := "selector_" ++ m.selector

/-- Duplicate test (detector.py 814-827): the combined key is always
checked; the text key only when the text is non-empty; the selector key
only when the selector is non-empty. -/
def isDuplicate (m : Msg) (seen : List String) : Bool :=
  seen.contains (selectorTextKey m) ||
  (!(m.text == "") && seen.contains (textKey m)) ||
  (!(m.selector == "") && seen.contains (selectorKey m))

/-- Key registration for a kept candidate (detector.py 830-835): the
combined key always, the text key when the text is non-empty, the
selector key when the selector is non-empty. -/
def registerKeys (m : Msg) (seen : List String) : List String :=
  let s1 := selectorTextKey m :: seen
  let s2 := if m.text = "" then s1 else textKey m :: s1
  if m.selector = "" then s2 else selectorKey m :: s2

/-- Deduplication loop of _analyze_results (detector.py 795-837) over the
normalized candidate list, threading the seen-keys set. -/
def dedupMessages : List Msg → List String → List Msg
  | [], _ => []
  | m :: rest, seen =>
    if isDuplicate m seen then dedupMessages rest seen
    else m :: dedupMessages rest (registerKeys m seen)

/-- Key set of a candidate as described by the specification: the
(selector + text-prefix) key, the text-prefix key when the text is
non-empty, and the selector key when the selector is non-empty. -/
def candidateKeys (m : Msg) : List String :=
  [selectorTextKey m]
    ++ (if m.text = "" then [] else [textKey m])
    ++ (if m.selector = "" then [] else [selectorKey m])

/-- Specification-side deduplication, from the claim wording: a candidate
is kept if and only if none of its keys was already registered by an
earlier kept candidate in the same pass. -/
def dedupSpec : List Msg → List Msg → List Msg
  | [], _ => []
  | m :: rest, kept =>
    if kept.any (fun m2 => (candidateKeys m).any
        (fun key => (candidateKeys m2).contains key)) then
      dedupSpec rest kept
    else m :: dedupSpec rest (kept ++ [m])

theorem isDuplicate_iff (m : Msg) (seen : List String) :
    isDuplicate m seen = true ↔ ∃ key ∈ candidateKeys m, key ∈ seen := by
  by_cases ht : m.text = "" <;> by_cases hs : m.selector = "" <;>
    simp [isDuplicate, candidateKeys, ht, hs, List.elem_iff, or_assoc]

theorem mem_registerKeys (m : Msg) (seen : List String) (key : String) :
    key ∈ registerKeys m seen ↔ key ∈ candidateKeys m ∨ key ∈ seen := by
  by_cases ht : m.text = "" <;> by_cases hs : m.selector = "" <;>
    simp [registerKeys, candidateKeys, ht, hs, or_assoc] <;> tauto

theorem specDup_iff (m : Msg) (kept : List Msg) :
    (kept.any (fun m2 => (candidateKeys m).any
        (fun key => (candidateKeys m2).contains key)) = true)
      ↔ ∃ key ∈ candidateKeys m, ∃ m2 ∈ kept, key ∈ candidateKeys m2 := by
  simp [List.any_eq_true, List.elem_iff]
  tauto

theorem dedup_eq_aux :
    ∀ (msgs : List Msg) (seen : List String) (kept : List Msg),
      (∀ key : String, key ∈ seen ↔ ∃ m2 ∈ kept, key ∈ candidateKeys m2) →
      dedupMessages msgs seen = dedupSpec msgs kept := by
  intro msgs
  induction msgs with
  | nil => intro seen kept _; rfl
  | cons m rest ih =>
    intro seen kept hInv
    have hcond : isDuplicate m seen
        = kept.any (fun m2 => (candidateKeys m).any
            (fun key => (candidateKeys m2).contains key)) := by
      by_cases hd : isDuplicate m seen = true
      · obtain ⟨key, hk1, hk2⟩ := (isDuplicate_iff m seen).mp hd
        have : ∃ key ∈ candidateKeys m, ∃ m2 ∈ kept, key ∈ candidateKeys m2 :=
          ⟨key, hk1, (hInv key).mp hk2⟩
        rw [hd, (specDup_iff m kept).mpr this]
      · have hd2 : ¬ (kept.any (fun m2 => (candidateKeys m).any
            (fun key => (candidateKeys m2).contains key)) = true) := by
          intro hcon
          obtain ⟨key, hk1, hk2⟩ := (specDup_iff m kept).mp hcon
          exact hd ((isDuplicate_iff m seen).mpr ⟨key, hk1, (hInv key).mpr hk2⟩)
        rw [Bool.eq_false_iff.mpr hd, Bool.eq_false_iff.mpr hd2]
    by_cases hd : isDuplicate m seen = true
    · rw [dedupMessages, dedupSpec, if_pos hd, if_pos (hcond ▸ hd)]
      exact ih seen kept hInv
    · rw [dedupMessages, dedupSpec, if_neg hd, if_neg (by rw [← hcond]; exact hd)]
      congr 1
      apply ih
      intro key
      rw [mem_registerKeys]
      constructor
      · rintro (hk | hk)
        · exact ⟨m, by simp, hk⟩
        · obtain ⟨m2, hm2, hk2⟩ := (hInv key).mp hk
          exact ⟨m2, by simp [hm2], hk2⟩
      · rintro ⟨m2, hm2, hk2⟩
        rcases List.mem_append.mp hm2 with hm2 | hm2
        · exact Or.inr ((hInv key).mpr ⟨m2, hm2, hk2⟩)
        · simp only [List.mem_singleton] at hm2
          subst hm2
          exact Or.inl hk2

/-- Claim C5: a candidate survives fusion deduplication if and only if
none of its three keys (selector + 50-character text prefix; text prefix
alone when the text is non-empty; selector alone when the selector is
non-empty) was registered by an earlier kept candidate of the same pass,
and four candidates sharing one selector with case-variant texts collapse
to exactly the first one. -/
theorem analyze_results_dedup :
    (∀ msgs : List Msg, dedupMessages msgs [] = dedupSpec msgs []) ∧
    dedupMessages
      [⟨"#list > div:nth-child(1)", "New message", "dom", 0⟩,
       ⟨"#list > div:nth-child(1)", "new message", "dom", 0⟩,
       ⟨"#list > div:nth-child(1)", "New message", "css", 0⟩,
       ⟨"#list > div:nth-child(1)", "new message", "css", 0⟩] []
      = [⟨"#list > div:nth-child(1)", "New message", "dom", 0⟩] := by
  constructor
  · intro msgs
    apply dedup_eq_aux
    intro key
    simp
  · decide

/-- Substring containment, Python needle in hay on code-point lists. -/
def strContains (hay needle : String) : Bool :=
  hay.data.tails.any (fun t => needle.data.isPrefixOf t)

/-- Detection-method weight table (detector.py 845-852) with the .get
default of 0.4 for unknown methods. -/
def methodWeight (method : String) : ℚ :=
  if method = "dom" then 1
  else if method = "css" then 4/5
  else if method = "visual" then 3/5
  else 2/5

/-- Fixed keyword set of the ranking (detector.py 860). -/
def scoreKeywords : List String := ["未读", "新消息", "消息", "回复", "通知"]

/-- Number of ranking keywords occurring in the text (detector.py 861). -/
def keywordScore (text : String) : Nat :=
  (scoreKeywords.filter (fun k => strContains text k)).length

/-- Selector-hint bonus (detector.py 864-869). -/
def selectorBonus (selector : String) : ℚ :=
  if strContains selector "unread" || strContains selector "new"
      || strContains selector "red" then 2
  else if strContains selector "message" || strContains selector "chat" then 1
  else 0

/-- Composite ranking score message_score (detector.py 840-871),
accumulated in the order of the source. -/
def messageScore (m : Msg) : ℚ :=
  let score : ℚ := 0
  let score := score + methodWeight m.method * 5
  let score := score + m.confidence * 3
  let score := score + (keywordScore m.text : ℚ) * 2
  score + selectorBonus m.selector

/-- Order underlying sort(key=message_score, reverse=True): descending
score. -/
def scoreRel (a b : Msg) : Prop := messageScore b ≤ messageScore a

instance : DecidableRel scoreRel :=
  fun a b => inferInstanceAs (Decidable (messageScore b ≤ messageScore a))

instance : IsTotal Msg scoreRel :=
  ⟨fun a b => le_total (messageScore b) (messageScore a)⟩

instance : IsTrans Msg scoreRel :=
  ⟨fun _ _ _ hab hbc => le_trans hbc hab⟩

/-- Fusion output (detector.py 874): the deduplicated candidates sorted by
descending composite score (the Python sort is modelled by insertion
sort; the properties proved are order and permutation). -/
def analyzeResultsOutput (msgs : List Msg) : List Msg :=
  List.insertionSort scoreRel (dedupMessages msgs [])

/-- Claim C6: the ranking score of every deduplicated candidate equals
method_weight * 5 + confidence * 3 + keyword_hit_count * 2 +
selector_hint_bonus with the documented weight table, and the fusion
output is the deduplicated list sorted in descending score order. -/
theorem analyze_results_ranking :
    (∀ m : Msg, messageScore m
      = methodWeight m.method * 5 + m.confidence * 3
        + (keywordScore m.text : ℚ) * 2 + selectorBonus m.selector) ∧
    methodWeight "dom" = 1 ∧ methodWeight "css" = 4/5 ∧
    methodWeight "visual" = 3/5 ∧ methodWeight "unknown" = 2/5 ∧
    (∀ msgs : List Msg,
      (analyzeResultsOutput msgs).Perm (dedupMessages msgs []) ∧
      (analyzeResultsOutput msgs).Sorted scoreRel) := by
  refine ⟨?_, by simp [methodWeight], by simp [methodWeight],
    by simp [methodWeight], by simp [methodWeight], ?_⟩
  · intro m
    simp [messageScore]
  · intro msgs
    exact ⟨List.perm_insertionSort scoreRel _,
      List.sorted_insertionSort scoreRel _⟩

/-! ## Pixel-diff analysis and candidate confidences
    Source: src/__pycache__/core/detector.py, _analyze_diff (996-1032),
    the dom-probe page script confidence computation (378-392), the
    css-probe page script confidence computation (539-552), and the
    simulated fallbacks (237-246, 616-624). -/

/-- Bounding rectangle of a connected change region. -/
structure Rect where
  x : Int
  y : Int
  w : Int
  h : Int
deriving DecidableEq, Repr

/-- Connected contour of the thresholded difference image, characterized
by its area (cv2.contourArea) and bounding rectangle (cv2.boundingRect);
the contour extraction itself is the external cv2 collaborator. -/
structure Contour where
  area : ℚ
  rect : Rect
deriving DecidableEq, Repr

/-- One change region reported by the visual probe; the simulated fallback
produces changes without a position. -/
structure Change where
  type : String
  index : Nat
  confidence : ℚ
  position : Option Rect
deriving DecidableEq, Repr

/-- Loop of _analyze_diff over the enumerated contours (detector.py
1015-1026): a contour of area above 100 becomes a change with confidence
min(1.0, area / 10000) and its bounding box. -/
def analyzeDiffGo : Nat → List Contour → List Change
  | _, [] => []
  | i, cont :: rest =>
    if 100 < cont.area then
      { type := "message", index := i + 1,
        confidence := min 1 (cont.area / 10000),
        position := some cont.rect } :: analyzeDiffGo (i + 1) rest
    else analyzeDiffGo (i + 1) rest

/-- Body of _analyze_diff (detector.py 996-1032): None input gives no
changes; otherwise the contour loop runs from index 0. -/
def analyzeDiff (diff : Option (List Contour)) : List Change :=
  match diff with
  | none => []
  | some contours => analyzeDiffGo 0 contours

theorem analyzeDiffGo_mem :
    ∀ (i : Nat) (contours : List Contour) (c : Change),
      c ∈ analyzeDiffGo i contours →
      ∃ cont ∈ contours, 100 < cont.area ∧
        c.confidence = min 1 (cont.area / 10000) := by
  intro i contours
  induction contours generalizing i with
  | nil => intro c hc; simp [analyzeDiffGo] at hc
  | cons cont rest ih =>
    intro c hc
    by_cases harea : 100 < cont.area
    · rw [analyzeDiffGo, if_pos harea] at hc
      rcases List.mem_cons.mp hc with hc | hc
      · exact ⟨cont, List.mem_cons_self _ _, harea, by rw [hc]⟩
      · obtain ⟨cont2, h1, h2, h3⟩ := ih (i + 1) c hc
        exact ⟨cont2, List.mem_cons_of_mem _ h1, h2, h3⟩
    · rw [analyzeDiffGo, if_neg harea] at hc
      obtain ⟨cont2, h1, h2, h3⟩ := ih (i + 1) c hc
      exact ⟨cont2, List.mem_cons_of_mem _ h1, h2, h3⟩

/-- Confidence computation of the dom-probe page script (detector.py
378-392): base 0.5, selector bonuses, text bonus, class bonus, then
clamp to the interval from 0.1 to 1.0. -/
def domConfidence (selector text className : String) : ℚ :=
  let c : ℚ := 1/2
  let c := if strContains selector "unread" then c + 3/10 else c
  let c := if strContains selector "red" then c + 1/5 else c
  let c := if strContains selector "new" then c + 1/5 else c
  let c := if strContains text "未读" || strContains text "新消息"
    then c + 3/10 else c
  let c := if strContains className "unread" || strContains className "new"
    then c + 1/5 else c
  min 1 (max (1/10) c)

/-- Confidence computation of the css-probe page script (detector.py
539-552): the pattern weight, a text bonus, a position bonus for elements
near the viewport top, then clamp to the interval from 0.1 to 1.0. -/
def cssConfidence (weight : ℚ) (text : String) (top : ℚ) : ℚ :=
  let c := weight
  let c := if strContains text "未读" || strContains text "新消息"
      || strContains text "消息" then c + 1/5 else c
  let c := if top < 300 then c + 1/10 else c
  min 1 (max (1/10) c)

/-- Python random.uniform(a, b) as a + (b - a) * u for the underlying
random() draw u. -/
def uniformSample (a b u : ℚ) : ℚ := a + (b - a) * u

/-- Confidence of a simulated visual change, random.uniform(0.8, 0.99)
(detector.py 245). -/
def simVisualConfidence (u : ℚ) : ℚ := uniformSample (4/5) (99/100) u

/-- Confidence of a simulated css element, random.uniform(0.7, 0.95)
(detector.py 623). -/
def simCssConfidence (u : ℚ) : ℚ := uniformSample (7/10) (19/20) u

/-- Claim C7: every candidate confidence produced by the probes lies in
the closed interval from 0 to 1: each pixel-diff change region arises only
from a contour of area above 100 and has confidence exactly
min(1.0, area / 10000); the dom and css page-script confidences are
clamped into the interval; and the simulated fallback confidences drawn
from their uniform ranges lie in the interval. -/
theorem probe_confidence_bounds :
    (∀ (diff : Option (List Contour)) (c : Change), c ∈ analyzeDiff diff →
      (∃ cont ∈ diff.getD [], 100 < cont.area ∧
        c.confidence = min 1 (cont.area / 10000)) ∧
      0 ≤ c.confidence ∧ c.confidence ≤ 1) ∧
    (∀ selector text className : String,
      0 ≤ domConfidence selector text className ∧
      domConfidence selector text className ≤ 1) ∧
    (∀ (weight : ℚ) (text : String) (top : ℚ),
      0 ≤ cssConfidence weight text top ∧ cssConfidence weight text top ≤ 1) ∧
    (∀ u : ℚ, 0 ≤ u → u ≤ 1 →
      0 ≤ simVisualConfidence u ∧ simVisualConfidence u ≤ 1) ∧
    (∀ u : ℚ, 0 ≤ u → u ≤ 1 →
      0 ≤ simCssConfidence u ∧ simCssConfidence u ≤ 1) := by
  refine ⟨?_, ?_, ?_, ?_, ?_⟩
  · intro diff c hc
    have hkey : ∃ cont ∈ diff.getD [], 100 < cont.area ∧
        c.confidence = min 1 (cont.area / 10000) := by
      match diff with
      | none => simp [analyzeDiff] at hc
      | some contours => exact analyzeDiffGo_mem 0 contours c hc
    refine ⟨hkey, ?_, ?_⟩
    · obtain ⟨cont, _, harea, hconf⟩ := hkey
      rw [hconf]
      have : (0:ℚ) ≤ cont.area / 10000 :=
        div_nonneg (le_of_lt (lt_trans (by norm_num) harea)) (by norm_num)
      exact le_min (by norm_num) this
    · obtain ⟨cont, _, _, hconf⟩ := hkey
      rw [hconf]
      exact min_le_left _ _
  · intro selector text className
    unfold domConfidence
    constructor
    · exact le_min (by norm_num)
        (le_trans (by norm_num) (le_max_left (1/10) _))
    · exact min_le_left _ _
  · intro weight text top
    unfold cssConfidence
    constructor
    · exact le_min (by norm_num)
        (le_trans (by norm_num) (le_max_left (1/10) _))
    · exact min_le_left _ _
  · intro u hu0 hu1
    unfold simVisualConfidence uniformSample
    constructor <;> nlinarith
  · intro u hu0 hu1
    unfold simCssConfidence uniformSample
    constructor <;> nlinarith

/-- Concrete contour used by the witness below: area 200. -/
def witnessContour : Contour := ⟨200, ⟨0, 0, 10, 20⟩⟩

/-- Concrete change produced by _analyze_diff on the 200-area contour. -/
def witnessChange : Change := ⟨"message", 1, min 1 (200 / 10000), some ⟨0, 0, 10, 20⟩⟩

/-- Witness: probe_confidence_bounds applied to the single change produced
by a concrete 200-area contour and to the concrete uniform draw u = 1/2. -/
theorem probe_confidence_bounds_witness :
    (witnessChange ∈ analyzeDiff (some [witnessContour]) ∧
      ((∃ cont ∈ (some [witnessContour]).getD [],
          100 < cont.area ∧
          witnessChange.confidence = min 1 (cont.area / 10000)) ∧
        0 ≤ witnessChange.confidence ∧ witnessChange.confidence ≤ 1)) ∧
    ((0:ℚ) ≤ 1/2 ∧ (1/2:ℚ) ≤ 1) ∧
    (0 ≤ simVisualConfidence (1/2) ∧ simVisualConfidence (1/2) ≤ 1) ∧
    (0 ≤ simCssConfidence (1/2) ∧ simCssConfidence (1/2) ≤ 1) := by
  have h : analyzeDiff (some [witnessContour]) = [witnessChange] := by
    show analyzeDiffGo 0 [witnessContour] = [witnessChange]
    rw [analyzeDiffGo,
      if_pos (by norm_num [witnessContour] : (100:ℚ) < witnessContour.area),
      analyzeDiffGo]
    rfl
  have hmem : witnessChange ∈ analyzeDiff (some [witnessContour]) := by
    rw [h]
    exact List.mem_singleton_self _
  exact ⟨⟨hmem,
      probe_confidence_bounds.1 (some [witnessContour]) witnessChange hmem⟩,
    ⟨by norm_num, by norm_num⟩,
    probe_confidence_bounds.2.2.2.1 (1/2) (by norm_num) (by norm_num),
    probe_confidence_bounds.2.2.2.2 (1/2) (by norm_num) (by norm_num)⟩

/-! ## Probe totality and degradation
    Source: src/__pycache__/core/detector.py, visual_detect (222-297),
    dom_detect (299-478), css_detect (480-641), scroll_detect (643-745).
    Each probe is modelled as a total function of an environment that
    supplies the result of each effectful call site; a page-script call
    site (runJavaScript plus callback wait) is Except-valued because the
    browser collaborator can raise, and None models a callback that never
    delivered a result. The log sink is treated as non-raising. -/

/-- Opaque pixel-buffer handle for a captured screenshot. -/
def Image : Type := Nat

/-- Raw message dict produced by the dom page script or its fallback. -/
structure DomMsg where
  index : Nat
  selector : String
  text : String
  className : String
  id : String
  confidence : ℚ
deriving DecidableEq, Repr

/-- Raw element dict produced by the css page script or its fallback. -/
structure CssElem where
  selector : String
  status : String
  description : String
  text : String
  confidence : ℚ
deriving DecidableEq, Repr

/-- Scroll-state dict returned by the first scroll page script. -/
structure ScrollInfo where
  scrollTop : Int
  scrollLeft : Int
  scrollHeight : Int
  clientHeight : Int
  canScroll : Bool
deriving DecidableEq, Repr

/-- Result dict of visual_detect. -/
structure VisualResult where
  detected : Bool
  changes : List Change
  method : String
deriving DecidableEq, Repr

/-- Result dict of dom_detect. -/
structure DomResult where
  detected : Bool
  messages : List DomMsg
  method : String
deriving DecidableEq, Repr

/-- Result dict of css_detect. -/
structure CssResult where
  detected : Bool
  elements : List CssElem
  method : String
deriving DecidableEq, Repr

/-- Result dict of scroll_detect. -/
structure ScrollResult where
  scrolled : Bool
  position : Int
  method : String
deriving DecidableEq, Repr

/-- Environment of one visual_detect invocation: the screenshot capture
(_capture_screenshot catches internally and yields None on any failure or
missing browser), the diff computation (_calculate_diff composed with
cv2.findContours; _calculate_diff catches internally and yields None on
failure), and the random draws of the simulated fallback. -/
structure VisualEnv where
  capture : Option Image
  calcDiff : Image → Image → Option (List Contour)
  simDetected : Bool
  simCount : Nat
  simU : Nat → ℚ

/-- Changes fabricated by the simulated visual fallback (detector.py
237-246): random.randint(1, 3) changes of type message with uniform
confidences and no position. -/
def simVisualChanges (env : VisualEnv) : List Change :=
  if env.simDetected then
    (List.range (env.simCount % 3 + 1)).map
      (fun i => { type := "message", index := i + 1,
                  confidence := simVisualConfidence (env.simU i),
                  position := none })
  else []

/-- Body of visual_detect (detector.py 222-297) on the current
last_screenshot state: a failed capture degrades to the simulated
fallback; a first capture only stores the baseline; otherwise the diff of
the two captures is analyzed. Returns the result dict and the new
last_screenshot state. -/
def visualDetect (env : VisualEnv) (lastScreenshot : Option Image) :
    VisualResult × Option Image :=
  match env.capture with
  | none =>
    ({ detected := env.simDetected, changes := simVisualChanges env,
       method := "visual" }, lastScreenshot)
  | some current =>
    match lastScreenshot with
    | some previous =>
      let changes := analyzeDiff (env.calcDiff previous current)
      if changes.isEmpty then
        ({ detected := false, changes := [], method := "visual" }, some current)
      else
        ({ detected := true, changes := changes, method := "visual" },
          some current)
    | none =>
      ({ detected := false, changes := [], method := "visual" }, some current)

/-- Environment of one dom_detect invocation: whether the browser is set,
the page-script call site result, and the random draws of the simulated
fallback. -/
structure DomEnv where
  browser : Bool
  script : Except String (Option (List DomMsg))
  simDetected : Bool
  simCount : Nat

/-- Messages fabricated by the simulated dom fallback (detector.py
452-461): random.randint(1, 2) messages with synthetic selectors. -/
def simDomMessages (env : DomEnv) : List DomMsg :=
  if env.simDetected then
    (List.range (env.simCount % 2 + 1)).map
      (fun i => { index := i + 1,
                  selector := "#message-list > div:nth-child("
                    ++ toString (i + 1) ++ ")",
                  text := "新消息 " ++ toString (i + 1),
                  className := "", id := "", confidence := 0 })
  else []

/-- Whole dom_detect (detector.py 299-478): the try body runs the page
script when the browser is set (an empty or missing script result leaves
the message list empty) or the simulated fallback otherwise; any raise is
caught and degrades to a detected=false result with no messages. -/
def domDetect (env : DomEnv) : DomResult :=
  if env.browser then
    match env.script with
    | Except.error _ => { detected := false, messages := [], method := "dom" }
    | Except.ok r =>
      let msgs := r.getD []
      { detected := decide (0 < msgs.length), messages := msgs, method := "dom" }
  else
    let msgs := simDomMessages env
    { detected := decide (0 < msgs.length), messages := msgs, method := "dom" }

/-- Environment of one css_detect invocation. -/
structure CssEnv where
  browser : Bool
  script : Except String (Option (List CssElem))
  simDetected : Bool
  simCount : Nat
  simU : Nat → ℚ

/-- Elements fabricated by the simulated css fallback (detector.py
616-625): random.randint(1, 2) unread elements with uniform confidences. -/
def simCssElements (env : CssEnv) : List CssElem :=
  if env.simDetected then
    (List.range (env.simCount % 2 + 1)).map
      (fun i => { selector := ".message-item:nth-child(" ++ toString (i + 1) ++ ")",
                  status := "unread", description := "", text := "",
                  confidence := simCssConfidence (env.simU i) })
  else []

/-- Whole css_detect (detector.py 480-641): same shape as dom_detect over
the css page script; any raise degrades to detected=false with no
elements. -/
def cssDetect (env : CssEnv) : CssResult :=
  if env.browser then
    match env.script with
    | Except.error _ => { detected := false, elements := [], method := "css" }
    | Except.ok r =>
      let elems := r.getD []
      { detected := decide (0 < elems.length), elements := elems,
        method := "css" }
  else
    let elems := simCssElements env
    { detected := decide (0 < elems.length), elements := elems,
      method := "css" }

/-- Environment of one scroll_detect invocation: the browser flag, the
scroll-state script, the scrollTo call, the position re-read script, and
the random draws of the simulated fallback. -/
structure ScrollEnv where
  browser : Bool
  script1 : Except String (Option ScrollInfo)
  scrollCall : Except String Unit
  script2 : Except String (Option Int)
  simScrolled : Bool
  simPos : Nat

/-- Whole scroll_detect (detector.py 643-745): reads the scroll state,
performs a probe scroll of +200 when the content is scrollable, and
reports whether the re-read offset is truthy and differs from the
original; any raise in the try body degrades to scrolled=false at
position 0. -/
def scrollDetect (env : ScrollEnv) : ScrollResult :=
  if env.browser then
    match env.script1 with
    | Except.error _ => { scrolled := false, position := 0, method := "scroll" }
    | Except.ok none => { scrolled := false, position := 0, method := "scroll" }
    | Except.ok (some info) =>
      if info.canScroll then
        match env.scrollCall with
        | Except.error _ =>
          { scrolled := false, position := 0, method := "scroll" }
        | Except.ok _ =>
          match env.script2 with
          | Except.error _ =>
            { scrolled := false, position := 0, method := "scroll" }
          | Except.ok newPos =>
            match newPos with
            | some np =>
              if np ≠ 0 ∧ np ≠ info.scrollTop then
                { scrolled := true, position := np, method := "scroll" }
              else
                { scrolled := false, position := info.scrollTop,
                  method := "scroll" }
            | none =>
              { scrolled := false, position := info.scrollTop,
                method := "scroll" }
      else
        { scrolled := false, position := info.scrollTop, method := "scroll" }
  else
    { scrolled := env.simScrolled,
      position := if env.simScrolled then 100 + (env.simPos % 401 : Nat) else 0,
      method := "scroll" }

/-- Claim C4: each probe is a total function of its environment, and every
internal failure degrades to a result with a false detection flag and an
empty or zero payload: a failed diff computation in visual_detect, a
raising page-script call in dom_detect or css_detect, and a raise at any
of the three scroll call sites in scroll_detect. -/
theorem probes_total_and_degrade :
    (∀ (env : VisualEnv) (lastScreenshot : Option Image) (prev cur : Image),
      env.capture = some cur → lastScreenshot = some prev →
      env.calcDiff prev cur = none →
      visualDetect env lastScreenshot
        = ({ detected := false, changes := [], method := "visual" }, some cur)) ∧
    (∀ (env : DomEnv) (e : String), env.browser = true →
      env.script = Except.error e →
      domDetect env = { detected := false, messages := [], method := "dom" }) ∧
    (∀ (env : CssEnv) (e : String), env.browser = true →
      env.script = Except.error e →
      cssDetect env = { detected := false, elements := [], method := "css" }) ∧
    (∀ (env : ScrollEnv) (e : String), env.browser = true →
      (env.script1 = Except.error e ∨
        (∃ info, env.script1 = Except.ok (some info) ∧ info.canScroll = true ∧
          (env.scrollCall = Except.error e ∨ env.script2 = Except.error e))) →
      scrollDetect env
        = { scrolled := false, position := 0, method := "scroll" }) := by
  refine ⟨?_, ?_, ?_, ?_⟩
  · intro env lastScreenshot prev cur hcap hlast hdiff
    simp [visualDetect, hcap, hlast, hdiff, analyzeDiff]
  · intro env e hb hs
    rw [domDetect, if_pos hb, hs]
  · intro env e hb hs
    rw [cssDetect, if_pos hb, hs]
  · intro env e hb hcase
    rcases hcase with hs1 | ⟨info, hs1, hcan, hs23⟩
    · rw [scrollDetect, if_pos hb, hs1]
    · rcases hs23 with hs2 | hs3
      · simp [scrollDetect, hb, hs1, hcan, hs2]
      · cases hsc : env.scrollCall with
        | error e2 => simp [scrollDetect, hb, hs1, hcan, hsc]
        | ok u => simp [scrollDetect, hb, hs1, hcan, hsc, hs3]

/-- Witness: the degradation equations of probes_total_and_degrade applied
to concrete failing environments. -/
theorem probes_total_and_degrade_witness :
    domDetect { browser := true, script := Except.error "ScriptExecutionFailure",
                simDetected := false, simCount := 0 }
      = { detected := false, messages := [], method := "dom" } ∧
    cssDetect { browser := true, script := Except.error "ScriptExecutionFailure",
                simDetected := false, simCount := 0, simU := fun _ => 0 }
      = { detected := false, elements := [], method := "css" } ∧
    scrollDetect { browser := true,
                   script1 := Except.error "ScriptExecutionFailure",
                   scrollCall := Except.ok (), script2 := Except.ok none,
                   simScrolled := false, simPos := 0 }
      = { scrolled := false, position := 0, method := "scroll" } :=
  ⟨probes_total_and_degrade.2.1 _ "ScriptExecutionFailure" rfl rfl,
   probes_total_and_degrade.2.2.1 _ "ScriptExecutionFailure" rfl rfl,
   probes_total_and_degrade.2.2.2 _ "ScriptExecutionFailure" rfl
     (Or.inl rfl)⟩

/-! ## Learning-result validation and persistence
    Source: src/main.py, DouyinAutoReplyApp._validate_saved_element
    (1588-1624) and DouyinAutoReplyApp._save_learning_results (1740-1798).
    The settings store (config_manager key/value collaborator) is modelled
    as a lookup function from keys to stored element descriptors. -/

/-- Captured element descriptor; a field is none when the corresponding
dict key is absent. -/
structure ElementInfo where
  tagName : Option String
  className : Option String
  xpath : Option String
  css : Option String
deriving DecidableEq, Repr

/-- Body of _validate_saved_element (main.py 1598-1620): all four required
fields must be present, at least one of the css and xpath selectors must
be non-empty, and the tag name must be non-empty. -/
def validateSavedElement (info : ElementInfo) : Bool :=
  if info.tagName.isNone then false
  else if info.className.isNone then false
  else if info.xpath.isNone then false
  else if info.css.isNone then false
  else if info.css.getD "" = "" ∧ info.xpath.getD "" = "" then false
  else if (info.tagName.getD "").toUpper = "" then false
  else true

/-- Persistent locator store of the settings collaborator. -/
def LocatorStore : Type := String → Option ElementInfo

/-- Store with no learned locators. -/
def emptyLocatorStore : LocatorStore := fun _ => none

/-- Settings-store write config_manager.set(key, value). -/
def storeSet (s : LocatorStore) (k : String) (v : ElementInfo) : LocatorStore :=
  fun k2 => if k2 = k then some v else s k2

/-- Deterministic core of _save_learning_results (main.py 1742-1761): the
loop at 1744-1748 commits every learned element to the store under key
learning_ + name unconditionally, and only afterwards the loop at
1754-1761 validates each element, folding the verdicts into all_valid;
a failed validation produces a warning but no rollback. Returns the
updated store and all_valid. -/
def saveLearningResults (store : LocatorStore)
    (elements : List (String × ElementInfo)) : LocatorStore × Bool :=
  let store2 := elements.foldl
    (fun s p => storeSet s ("learning_" ++ p.1) p.2) store
  let allValid := elements.all (fun p => validateSavedElement p.2)
  (store2, allValid)

/-- Counterexample to claim C8 as stated: an input-field descriptor with
none of the required attributes fails validation, yet after
_save_learning_results it is committed to the persistent store, because
the commit loop runs before validation. -/
theorem save_learning_commits_invalid_element :
    validateSavedElement ⟨none, none, none, none⟩ = false ∧
    (saveLearningResults emptyLocatorStore
        [("输入框", ⟨none, none, none, none⟩)]).1 "learning_输入框"
      = some ⟨none, none, none, none⟩ ∧
    (saveLearningResults emptyLocatorStore
        [("输入框", ⟨none, none, none, none⟩)]).2 = false := by
  refine ⟨rfl, by decide, rfl⟩

theorem saveLearning_fold_untouched :
    ∀ (elements : List (String × ElementInfo)) (s : LocatorStore) (k : String),
      (∀ q ∈ elements, ¬ ("learning_" ++ q.1 = k)) →
      (elements.foldl (fun s2 p => storeSet s2 ("learning_" ++ p.1) p.2) s) k
        = s k := by
  intro elements
  induction elements with
  | nil => intro s k _; rfl
  | cons p rest ih =>
    intro s k hk
    rw [List.foldl_cons]
    rw [ih _ k (fun q hq => hk q (List.mem_cons_of_mem _ hq))]
    have : ¬ (k = "learning_" ++ p.1) :=
      fun hc => hk p (List.mem_cons_self _ _) hc.symm
    simp [storeSet, this]

theorem string_append_left_cancel {a b c : String}
    (h : a ++ b = a ++ c) : b = c := by
  have h1 := congrArg String.data h
  simp at h1
  exact String.ext h1

theorem saveLearning_fold_mem :
    ∀ (elements : List (String × ElementInfo)) (s : LocatorStore)
      (name : String) (info : ElementInfo),
      (name, info) ∈ elements →
      (elements.map Prod.fst).Nodup →
      (elements.foldl (fun s2 p => storeSet s2 ("learning_" ++ p.1) p.2) s)
        ("learning_" ++ name) = some info := by
  intro elements
  induction elements with
  | nil => intro s name info h; cases h
  | cons p rest ih =>
    intro s name info hmem hnodup
    rw [List.map_cons, List.nodup_cons] at hnodup
    rcases List.mem_cons.mp hmem with hmem | hmem
    · obtain ⟨rfl, rfl⟩ : p.1 = name ∧ p.2 = info := by
        rw [← hmem]
        exact ⟨rfl, rfl⟩
      rw [List.foldl_cons]
      rw [saveLearning_fold_untouched rest _ _ ?_]
      · simp [storeSet]
      · intro q hq hc
        have hq1 : q.1 = p.1 := string_append_left_cancel hc
        exact hnodup.1 (by rw [← hq1]; exact List.mem_map_of_mem Prod.fst hq)
    · rw [List.foldl_cons]
      exact ih _ name info hmem hnodup.2

/-- Claim C8 (amended): a learned descriptor lacking any of the required
attributes fails validation, but it is nonetheless committed to the
persistent locator store, because _save_learning_results writes every
learned element to the settings store before validating; the failed
validation only makes all_valid false (a warning dialog). -/
theorem save_learning_results_invalid :
    ∀ (store : LocatorStore) (elements : List (String × ElementInfo))
      (name : String) (info : ElementInfo),
      (name, info) ∈ elements →
      (elements.map Prod.fst).Nodup →
      validateSavedElement info = false →
      (saveLearningResults store elements).1 ("learning_" ++ name) = some info ∧
      (saveLearningResults store elements).2 = false := by
  intro store elements name info hmem hnodup hval
  constructor
  · exact saveLearning_fold_mem elements store name info hmem hnodup
  · show (elements.all fun p => validateSavedElement p.2) = false
    apply Bool.eq_false_iff.mpr
    intro hall
    rw [List.all_eq_true] at hall
    have := hall (name, info) hmem
    rw [hval] at this
    cases this

/-- Witness: save_learning_results_invalid applied to the single-element
learning set holding an attribute-less input-field descriptor. -/
theorem save_learning_results_invalid_witness :
    ((("输入框", (⟨none, none, none, none⟩ : ElementInfo)))
        ∈ [("输入框", (⟨none, none, none, none⟩ : ElementInfo))]) ∧
    (([("输入框", (⟨none, none, none, none⟩ : ElementInfo))].map
        Prod.fst).Nodup) ∧
    validateSavedElement ⟨none, none, none, none⟩ = false ∧
    ((saveLearningResults emptyLocatorStore
        [("输入框", ⟨none, none, none, none⟩)]).1 ("learning_" ++ "输入框")
      = some ⟨none, none, none, none⟩ ∧
     (saveLearningResults emptyLocatorStore
        [("输入框", ⟨none, none, none, none⟩)]).2 = false) :=
  ⟨by decide, by decide, by decide,
    save_learning_results_invalid emptyLocatorStore
      [("输入框", ⟨none, none, none, none⟩)] "输入框"
      ⟨none, none, none, none⟩ (by decide) (by decide) (by decide)⟩

/-! ## Bounded retry of the top-level detection
    Source: src/__pycache__/core/detector.py,
    DetectorEngine.detect_new_messages (55-102): a while loop of at most
    max_retries = 3 attempts; a failed network check or browser check
    increments the retry counter and continues; an exception increments
    the counter and, on the last attempt, returns []. When the loop
    condition fails the function falls through with no return statement,
    which in Python yields None; the Option models that implicit None. -/

/-- Outcome of one attempt of the detect_new_messages loop body. -/
inductive DetectOutcome
  | netFail
  | browserFail
  | exce (msg : String)
  | done (msgs : List Msg)
deriving Repr

/-- Loop of detect_new_messages with the remaining attempt budget
(max_retries minus retry_count); exhausting the budget leaves the while
loop, which returns the implicit None. -/
def detectLoop (env : Nat → DetectOutcome) : Nat → Nat → Option (List Msg)
  | _, 0 => none
  | i, fuel + 1 =>
    match env i with
    | DetectOutcome.netFail => detectLoop env (i + 1) fuel
    | DetectOutcome.browserFail => detectLoop env (i + 1) fuel
    | DetectOutcome.exce _ =>
      if fuel = 0 then some [] else detectLoop env (i + 1) fuel
    | DetectOutcome.done msgs => some msgs

/-- Whole detect_new_messages (detector.py 55-102), with the attempt
outcomes supplied by the environment. -/
def detectNewMessages (env : Nat → DetectOutcome) : Option (List Msg) :=
  detectLoop env 0 3

/-- Claim C9 evaluated at the failing input: when every attempt fails the
network check, detect_new_messages returns the implicit None, not the
empty list the claim describes; three raising attempts do return []; a
first successful attempt returns its messages. -/
theorem detect_new_messages_all_network_failures_returns_none :
    detectNewMessages (fun _ => DetectOutcome.netFail) = none ∧
    detectNewMessages (fun _ => DetectOutcome.netFail) ≠ some [] ∧
    detectNewMessages (fun _ => DetectOutcome.exce "boom") = some [] ∧
    detectNewMessages (fun _ => DetectOutcome.done []) = some [] := by
  refine ⟨rfl, ?_, rfl, rfl⟩
  intro h
  cases h

end Douyin
